import Mathlib

/-!
Verification development for the 3D viewport controller in
`src/views/viewport.cpp` (ImGuiHydraEditor).

The camera model works on `GfVec3d`-style 3-vectors; we embed those as a
structure `V3` over `ℝ`.  The USD rotation pipeline
(`GfRotation(axis, degrees)` → `GfMatrix4d::SetRotate` →
`matrix * GfVec4d`) is embedded by `rotMatApply`: `GfRotation` stores the
normalized axis, `GetQuat` produces the quaternion
`(cos(θ/2), sin(θ/2)·axis)` with θ in radians, and `SetRotate` writes the
standard row-major quaternion rotation matrix (row-vector convention);
`matrix * vec4` multiplies the matrix with a column vector.
`GfVec3d::GetNormalized` is embedded exactly: the zero vector normalizes
to zero (USD guards tiny lengths with an epsilon; in exact real
arithmetic only the zero vector hits that guard).
-/

open scoped Classical

noncomputable section

/-! ### Definitions: data model and operations -/

@[ext] structure V3 where
  x : ℝ
  y : ℝ
  z : ℝ

namespace V3

instance : Zero V3 := ⟨⟨0, 0, 0⟩⟩

instance : Add V3 := ⟨fun a b => ⟨a.x + b.x, a.y + b.y, a.z + b.z⟩⟩

instance : Neg V3 := ⟨fun a => ⟨-a.x, -a.y, -a.z⟩⟩

instance : Sub V3 := ⟨fun a b => ⟨a.x - b.x, a.y - b.y, a.z - b.z⟩⟩

instance : SMul ℝ V3 := ⟨fun k a => ⟨k * a.x, k * a.y, k * a.z⟩⟩

/-- Dot product, as in `GfDot`. -/
def dot (a b : V3) : ℝ := a.x * b.x + a.y * b.y + a.z * b.z

/-- Cross product, as in `GfCross`. -/
def cross (a b : V3) : V3 :=
  ⟨a.y * b.z - a.z * b.y, a.z * b.x - a.x * b.z, a.x * b.y - a.y * b.x⟩

/-- Squared length, `GfDot(v, v)`. -/
def normSq (v : V3) : ℝ := v.x ^ 2 + v.y ^ 2 + v.z ^ 2

/-- Length, `GfVec3d::GetLength()`. -/
def len (v : V3) : ℝ := Real.sqrt v.normSq

/-- `GfVec3d::GetNormalized()` in exact arithmetic: the zero vector stays
zero, every other vector is divided by its length. -/
def normalize (v : V3) : V3 := if v = 0 then 0 else (v.len)⁻¹ • v

end V3

structure Q4 where
  w : ℝ
  x : ℝ
  y : ℝ
  z : ℝ

namespace Q4

/-- Hamilton product. -/
def mul (p q : Q4) : Q4 :=
  ⟨p.w * q.w - p.x * q.x - p.y * q.y - p.z * q.z,
   p.w * q.x + p.x * q.w + p.y * q.z - p.z * q.y,
   p.w * q.y - p.x * q.z + p.y * q.w + p.z * q.x,
   p.w * q.z + p.x * q.y - p.y * q.x + p.z * q.w⟩

def conj (q : Q4) : Q4 := ⟨q.w, -q.x, -q.y, -q.z⟩

def normSq (q : Q4) : ℝ := q.w ^ 2 + q.x ^ 2 + q.y ^ 2 + q.z ^ 2

def ofVec (v : V3) : Q4 := ⟨0, v.x, v.y, v.z⟩

def vec (q : Q4) : V3 := ⟨q.x, q.y, q.z⟩

end Q4

/-- Action of the row-major rotation matrix that
`GfMatrix4d::SetRotate(GfRotation)` builds from quaternion `(r, i)`,
applied to a column vector as in `rotMatrix * GfVec4d(e[0], e[1], e[2], 1)`
(the translation part of the matrix is zero, the w row/column identity). -/
def rotMatApply (r : ℝ) (i : V3) (v : V3) : V3 :=
  ⟨(1 - 2 * (i.y ^ 2 + i.z ^ 2)) * v.x + (2 * (i.x * i.y + i.z * r)) * v.y +
     (2 * (i.z * i.x - i.y * r)) * v.z,
   (2 * (i.x * i.y - i.z * r)) * v.x + (1 - 2 * (i.z ^ 2 + i.x ^ 2)) * v.y +
     (2 * (i.y * i.z + i.x * r)) * v.z,
   (2 * (i.z * i.x + i.y * r)) * v.x + (2 * (i.y * i.z - i.x * r)) * v.y +
     (1 - 2 * (i.x ^ 2 + i.y ^ 2)) * v.z⟩

/-- Degrees to half-angle radians, as in `GfRotation::GetQuat` applied to
an angle in degrees. -/
def degHalfRad (deg : ℝ) : ℝ := deg * Real.pi / 360

/-- `GfRotation rot(axis, deg); GfMatrix4d(1).SetRotate(rot); rotMatrix * v`:
the axis is normalized at construction, the quaternion is
`(cos(θ/2), sin(θ/2)·axis)`. -/
def rotateAbout (axis : V3) (deg : ℝ) (v : V3) : V3 :=
  rotMatApply (Real.cos (degHalfRad deg))
    (Real.sin (degHalfRad deg) • axis.normalize) v

structure Cam where
  eye : V3
  at' : V3
  up : V3

/-- `Viewport::_PanActiveCam(mouseDeltaPos)`, lines 377-390. -/
def panCam (c : Cam) (dx dy : ℝ) : Cam :=
  let camFront := c.at' - c.eye
  let camRight := (camFront.cross c.up).normalize
  let camUp := (camRight.cross camFront).normalize
  let delta := (-dx / 100) • camRight + (dy / 100) • camUp
  { c with eye := c.eye + delta, at' := c.at' + delta }

/-- `Viewport::_OrbitActiveCam(mouseDeltaPos)`, lines 392-409: rotate
`eye - at` about `up` by `dx/2` degrees, then about the recomputed
`camRight` by `dy/2` degrees. -/
def orbitCam (c : Cam) (dx dy : ℝ) : Cam :=
  let e1 := c.at' + rotateAbout c.up (dx / 2) (c.eye - c.at')
  let camFront := c.at' - e1
  let camRight := (camFront.cross c.up).normalize
  let e2 := c.at' + rotateAbout camRight (dy / 2) (e1 - c.at')
  { c with eye := e2 }

/-- The zoom scale factor of `Viewport::_ZoomActiveCam` (both the
mouse-delta and the scroll-wheel overload, lines 427-449):
`std::max(0.01f, logf(focusDistance * 0.02f))`. -/
def zoomScale (focusDistance : ℝ) : ℝ :=
  max 0.01 (Real.log (focusDistance * 0.02))

/-- `Viewport::_ZoomActiveCam(delta)`, lines 427-449 (`delta` is
`mouseDeltaPos.y` for the mouse overload, `scrollWheel` for the wheel
overload; the formula is identical). -/
def zoomCam (c : Cam) (delta : ℝ) : Cam :=
  let camToFocus := c.eye - c.at'
  let focusDistance := camToFocus.len
  let scale := zoomScale focusDistance
  { c with eye := c.eye + (delta * scale) • (c.at' - c.eye).normalize }

/-- `GfRange3d(min, max).GetMidpoint()`. -/
def midpoint3 (mn mx : V3) : V3 := (0.5 : ℝ) • (mn + mx)

/-- The geometric kernel of `Viewport::_FocusOnPrim`, lines 584-588,
after the extent `[mn, mx]` has been read from the prim's extent schema
(`GetSize` of the range is `mx - mn`).  Note the source updates `_at`
first, so the direction used for `_eye` is from the new `_at` to the old
`_eye`. -/
def focusOn (c : Cam) (mn mx : V3) : Cam :=
  let newAt := midpoint3 mn mx
  { c with
    at' := newAt,
    eye := newAt + ((mx - mn).len * 2) • (c.eye - newAt).normalize }

/-- A camera-mutator call, for stating sequence invariants. -/
inductive Cmd where
  | orbit (dx dy : ℝ)
  | pan (dx dy : ℝ)
  | zoom (delta : ℝ)

def stepCam (c : Cam) : Cmd → Cam
  | .orbit dx dy => orbitCam c dx dy
  | .pan dx dy => panCam c dx dy
  | .zoom delta => zoomCam c delta

def runCam (c : Cam) : List Cmd → Cam
  | [] => c
  | cmd :: rest => runCam (stepCam c cmd) rest

/-- A zoom step is safe when its displacement `delta * scale` does not
exactly equal the current focus distance (otherwise it lands `eye` on
`at`).  Orbit and pan are always safe. -/
def SafeCmd (c : Cam) : Cmd → Prop
  | .zoom delta => delta * zoomScale (c.eye - c.at').len ≠ (c.eye - c.at').len
  | _ => True

def SafeSeq : Cam → List Cmd → Prop
  | _, [] => True
  | c, cmd :: rest => SafeCmd c cmd ∧ SafeSeq (stepCam c cmd) rest

/-- Concrete state used to refute C1: `eye = (5,0,0)`, `at = (0,0,0)`,
`up = (0,1,0)`. -/
def cexCam : Cam := ⟨⟨5, 0, 0⟩, ⟨0, 0, 0⟩, ⟨0, 1, 0⟩⟩

/-- Witness state for the amended C1. -/
def witCam : Cam := ⟨⟨5, 5, 5⟩, ⟨0, 0, 0⟩, ⟨0, 1, 0⟩⟩

/-- Concrete state used to refute C6: the camera looks down `-x`
(`eye = (5,0,0)`, `at = (4,0,0)`) while the extent is centred away from
the old `at`, at `(0,10,0)`. -/
def cexCam6 : Cam := ⟨⟨5, 0, 0⟩, ⟨4, 0, 0⟩, ⟨0, 1, 0⟩⟩

def cexMn6 : V3 := ⟨-1, 9, -1⟩

def cexMx6 : V3 := ⟨1, 11, 1⟩

/-- Witness state for the amended C6: the spec's own scenario
(`at = (0,0,0)`, extent `[(-1,-1,-1),(1,1,1)]`). -/
def witCam6 : Cam := ⟨⟨1, 1, 1⟩, ⟨0, 0, 0⟩, ⟨0, 1, 0⟩⟩

/-- `GfMatrix4d`. -/
abbrev Mat4 := Matrix (Fin 4) (Fin 4) ℝ

/-- `GfMatrix4d().SetLookAt(eye, at, up)` (row-vector convention: the
rotation basis vectors are the columns of the upper 3x3 block and the
translation sits in the last row), as used by
`Viewport::_getCurViewMatrix`. -/
def lookAt (eye at' up : V3) : Mat4 :=
  let f := (at' - eye).normalize
  let s := (f.cross up).normalize
  let u := s.cross f
  !![s.x, u.x, -f.x, 0;
     s.y, u.y, -f.y, 0;
     s.z, u.z, -f.z, 0;
     -(eye.dot s), -(eye.dot u), eye.dot f, 1]

/-- `HdSceneIndexPrim` together with the data-source fields the viewport
reads through `HdXformSchema`/`HdCameraSchema`: a field is `none` when
the prim's data source does not provide it (the C++ then dereferences a
null handle). -/
structure HdPrim where
  primType : String
  xform : Option Mat4
  projection : Option String
  hAperture : Option ℝ
  vAperture : Option ℝ
  hApertureOffset : Option ℝ
  vApertureOffset : Option ℝ
  focalLength : Option ℝ
  clippingRange : Option (ℝ × ℝ)

inductive CamProj where
  | perspective
  | orthographic
deriving DecidableEq

/-- The `GfCamera` fields set by `Viewport::_ToGfCamera`. -/
structure GfCameraData where
  transform : Mat4
  projection : CamProj
  horizontalAperture : ℝ
  verticalAperture : ℝ
  horizontalApertureOffset : ℝ
  verticalApertureOffset : ℝ
  focalLength : ℝ
  clippingRange : ℝ × ℝ

/-- `GfCamera::APERTURE_UNIT`. -/
def apertureUnit : ℝ := 0.1

/-- `GfCamera::FOCAL_LENGTH_UNIT`. -/
def focalLengthUnit : ℝ := 0.1

/-- A default-constructed `GfCamera`: identity transform, perspective
projection, USD default aperture/focal/clipping values. -/
def defaultGfCamera : GfCameraData :=
  { transform := 1
    projection := .perspective
    horizontalAperture := 20.955
    verticalAperture := 15.2908
    horizontalApertureOffset := 0
    verticalApertureOffset := 0
    focalLength := 50
    clippingRange := (1, 1000000) }

/-- `HdPrimTypeTokens->camera`. -/
def cameraToken : String := "camera"

/-- `HdCameraSchemaTokens->orthographic`. -/
def orthographicToken : String := "orthographic"

/-- The camera `Viewport::_ToGfCamera` builds once every schema field has
been read (`Set...` calls at lines 552-561). -/
def mkGfCam (xf : Mat4) (pr : String) (ha va ho vo fl : ℝ)
    (cr : ℝ × ℝ) : GfCameraData :=
  { transform := xf
    projection := if pr = orthographicToken then .orthographic else .perspective
    horizontalAperture := ha / apertureUnit
    verticalAperture := va / apertureUnit
    horizontalApertureOffset := ho / apertureUnit
    verticalApertureOffset := vo / apertureUnit
    focalLength := fl / focalLengthUnit
    clippingRange := cr }

/-- `Viewport::_ToGfCamera(prim)`, lines 522-564.  A prim whose type is
not `camera` yields the default camera (line 526).  For a camera-typed
prim every schema field is read unconditionally; a missing field makes
the C++ dereference a null data-source handle, embedded here as `none`. -/
def toGfCamera (prim : HdPrim) : Option GfCameraData :=
  if prim.primType ≠ cameraToken then some defaultGfCamera else
  prim.xform.bind fun xf =>
  prim.projection.bind fun pr =>
  prim.hAperture.bind fun ha =>
  prim.vAperture.bind fun va =>
  prim.hApertureOffset.bind fun ho =>
  prim.vApertureOffset.bind fun vo =>
  prim.focalLength.bind fun fl =>
  prim.clippingRange.map fun cr =>
  mkGfCam xf pr ha va ho vo fl cr

/-- Models `cam.GetFrustum().ComputeProjectionMatrix()` (USD library,
row-vector convention; the frustum window is the aperture around the
offset, at unit distance, divided by the focal length).  Only the
structure of the matrix matters for the claims; note the `(3,3)` entry
is `0` for a perspective camera and `1` for an orthographic one. -/
def projFromCamera (cam : GfCameraData) : Mat4 :=
  let n := cam.clippingRange.1
  let fa := cam.clippingRange.2
  let l := (-cam.horizontalAperture / 2 + cam.horizontalApertureOffset) /
    cam.focalLength
  let r := (cam.horizontalAperture / 2 + cam.horizontalApertureOffset) /
    cam.focalLength
  let b := (-cam.verticalAperture / 2 + cam.verticalApertureOffset) /
    cam.focalLength
  let t := (cam.verticalAperture / 2 + cam.verticalApertureOffset) /
    cam.focalLength
  match cam.projection with
  | .perspective =>
    !![2 / (r - l), 0, 0, 0;
       0, 2 / (t - b), 0, 0;
       (r + l) / (r - l), (t + b) / (t - b), -(fa + n) / (fa - n), -1;
       0, 0, -2 * fa * n / (fa - n), 0]
  | .orthographic =>
    !![2 / (r - l), 0, 0, 0;
       0, 2 / (t - b), 0, 0;
       0, 0, -2 / (fa - n), 0;
       -(r + l) / (r - l), -(t + b) / (t - b), -(fa + n) / (fa - n), 1]

/-- The viewport state the scene-graph bridge and frame orchestrator act
on: the free camera (`_eye`, `_at`, `_up`), the projection `_proj`, the
bound camera path `_activeCam` (`none` is the free camera), the scene
(`GetFinalSceneIndex()->GetPrim` composed with the xform overrides of
`_xformSceneIndex`), and the shared selection. -/
structure VState where
  eye : V3
  at' : V3
  up : V3
  proj : Mat4
  activeCam : Option String
  scene : String → HdPrim
  selection : List String

/-- `Viewport::_getCurViewMatrix()`. -/
def lookAtOf (s : VState) : Mat4 := lookAt s.eye s.at' s.up

/-- `_xformSceneIndex->SetXform(path, m)`: override the prim's transform
in the editable layer. -/
def setXform (s : VState) (p : String) (m : Mat4) : VState :=
  let newPrim := { s.scene p with xform := some m }
  { s with scene := Function.update s.scene p newPrim }

/-- `Viewport::_UpdateActiveCamFromViewport()`, lines 482-500
(`PushViewportToActiveCamera`).  Returns the new state and whether a
`SetXform` write was issued; `none` models the unguarded null-handle
dereference inside `_ToGfCamera` for a schema-incomplete camera prim.
`prevFrustum.ComputeViewMatrix()` is the inverse of the authored camera
transform, and `prevFrustum.ComputeProjectionMatrix()` is
`projFromCamera`. -/
def updateActiveCamFromViewport (s : VState) : Option (VState × Bool) :=
  match s.activeCam with
  | none => some (s, false)
  | some p =>
    (toGfCamera (s.scene p)).map fun cam =>
      let view := lookAtOf s
      let prevView := cam.transform⁻¹
      let prevProj := projFromCamera cam
      if view = prevView ∧ s.proj = prevProj then (s, false)
      else (setXform s p view⁻¹, true)

/-- Two consecutive calls of `_UpdateActiveCamFromViewport` with no other
intervening change; records which calls issued a write. -/
def twiceWrites (s : VState) : Option (Bool × Bool) :=
  (updateActiveCamFromViewport s).bind fun r1 =>
    (updateActiveCamFromViewport r1.1).map fun r2 => (r1.2, r2.2)

/-- `Viewport::_UpdateTransformGuizmo()`, lines 311-331, reduced to its
decision: given the selection, the editable layer (`GetXform`) and the
gizmo overlay's manipulate step, return the `SetXform` write it issues,
if any (`none` for an empty selection, an empty first path, or an
unchanged matrix). -/
def updateTransformGuizmo (sel : List String) (xf : String → Mat4)
    (manip : Mat4 → Mat4) : Option (String × Mat4) :=
  match sel with
  | [] => none
  | p :: _ =>
    if p = "" then none
    else
      let transform := xf p
      let transformF := manip transform
      if transformF = transform then none else some (p, transformF)

/-- `Viewport::_MouseReleaseEvent` for the left button, lines 637-653:
if the accumulated drag delta satisfies `|dx| + |dy| < 0.001`, run the
intersection query (`intr` is its result: `none` for an empty hit path)
and replace the selection; otherwise leave the selection unchanged.  The
returned flag records whether `FindIntersection` ran. -/
def mouseReleaseLeft (dx dy : ℝ) (intr : Option String)
    (sel : List String) : List String × Bool :=
  if |dx| + |dy| < 0.001 then
    ((match intr with
      | none => []
      | some p => [p]), true)
  else (sel, false)

/-- Observable per-frame effects of the draw sequence. -/
inductive Eff where
  | cameraPull
  | projectionUpdate
  | renderSubmit
  | readback
  | present
  | gizmoUpdate
  | xformWrite

/-- `GfFrustum::GetPosition()` after
`SetPositionAndRotationFromMatrix(camToWorld)`: the translation row of
the (row-vector convention) camera-to-world matrix. -/
def frustumPosition (m : Mat4) : V3 := ⟨m 3 0, m 3 1, m 3 2⟩

/-- Models `GfFrustum::ComputeLookAtPoint()`: the position advanced by
the default view distance (5) along the view direction, which for a
row-vector-convention rigid transform is minus the third basis row. -/
def frustumLookAtPoint (m : Mat4) : V3 :=
  frustumPosition m + (5 : ℝ) • ⟨-(m 2 0), -(m 2 1), -(m 2 2)⟩

/-- `Viewport::_UpdateViewportFromActiveCam()`, lines 462-475
(`PullActiveCameraToViewport`): re-derive `eye`/`at` from the authored
camera's frustum; a no-op for the free camera. -/
def pullViewportFromActiveCam (s : VState) : Option VState :=
  match s.activeCam with
  | none => some s
  | some p =>
    (toGfCamera (s.scene p)).map fun cam =>
      { s with
        eye := frustumPosition cam.transform
        at' := frustumLookAtPoint cam.transform }

/-- Modelled from the spec: `_FREE_CAM_FOV` is declared in `viewport.h`,
which is not among the sources; the spec gives a 45° vertical FOV. -/
def freeCamFov : ℝ := 45

/-- Modelled from the spec: `_FREE_CAM_NEAR` is declared in `viewport.h`,
which is not among the sources; the spec gives `near = 0.1`. -/
def freeCamNear : ℝ := 0.1

/-- Modelled from the spec: `_FREE_CAM_FAR` is declared in `viewport.h`,
which is not among the sources; the spec gives `far = 10000`. -/
def freeCamFar : ℝ := 10000

/-- `GfCamera::GetFieldOfView(FOVVertical)` in degrees. -/
def gfFovVertical (cam : GfCameraData) : ℝ :=
  2 * Real.arctan (cam.verticalAperture / (2 * cam.focalLength)) * 180 /
    Real.pi

/-- `GfFrustum().SetPerspective(fovDeg, true, aspect, n, fa)` followed by
`ComputeProjectionMatrix()` (row-vector convention, vertical FOV). -/
def perspProjFov (fovDeg aspect n fa : ℝ) : Mat4 :=
  let t := Real.tan (fovDeg * Real.pi / 360)
  !![1 / (t * aspect), 0, 0, 0;
     0, 1 / t, 0, 0;
     0, 0, -(fa + n) / (fa - n), -1;
     0, 0, -2 * fa * n / (fa - n), 0]

/-- `Viewport::_UpdateProjection()`, lines 502-520: perspective from the
free-camera constants, or from the bound camera's FOV and clipping
range, at the viewport aspect ratio. -/
def updateProjection (w h : ℝ) (s : VState) : Option VState :=
  match s.activeCam with
  | none =>
    some { s with proj := perspProjFov freeCamFov (w / h) freeCamNear freeCamFar }
  | some p =>
    (toGfCamera (s.scene p)).map fun cam =>
      let p2 := perspProjFov (gfFovVertical cam) (w / h)
        cam.clippingRange.1 cam.clippingRange.2
      { s with proj := p2 }

/-- `Viewport::_UpdateTransformGuizmo()` as a state step: apply the
gizmo write (if any) to the editable layer (`GetXform` of a prim without
an authored transform defaults to the identity). -/
def transformGizmoStep (manip : Mat4 → Mat4) (s : VState) :
    VState × List Eff :=
  match updateTransformGuizmo s.selection
      (fun p => ((s.scene p).xform).getD 1) manip with
  | none => (s, [Eff.gizmoUpdate])
  | some (p, m) => (setXform s p m, [Eff.gizmoUpdate, Eff.xformWrite])

/-- `Viewport::_UpdateCubeGuizmo()`, lines 333-353: if the view-cube
overlay mutates the view matrix, decompose the new view into `eye`/`at`
via the frustum of its inverse and push to the active camera. -/
def cubeGizmoStep (manipV : Mat4 → Mat4) (s : VState) :
    Option (VState × List Eff) :=
  let view := lookAtOf s
  let v2 := manipV view
  if v2 = view then some (s, [Eff.gizmoUpdate])
  else
    let inv := v2⁻¹
    let s2 := { s with eye := frustumPosition inv, at' := frustumLookAtPoint inv }
    (updateActiveCamFromViewport s2).map fun r =>
      (r.1, [Eff.gizmoUpdate] ++ if r.2 then [Eff.xformWrite] else [])

/-- `Viewport::_Draw()`, lines 87-111, from the viewport-size guard on
(the menu bar drawn before the guard is UI chrome, out of scope): skip
the frame when either pixel dimension is non-positive, otherwise pull
the camera when unfocused, recompute the projection, submit/execute the
render with GPU readback and presentation when a GPU texture is
available, then run the transform and view-cube gizmos (the grid and the
plugin label are pure drawing).  `manipT`/`manipV` stand for the gizmo
overlay's manipulate steps. -/
def drawFrame (w h : ℝ) (focused : Bool) (manipT manipV : Mat4 → Mat4)
    (gpuAvail : Bool) (s : VState) : Option (VState × List Eff) :=
  if w ≤ 0 ∨ h ≤ 0 then some (s, [])
  else
    (if focused then some (s, ([] : List Eff))
     else (pullViewportFromActiveCam s).map fun s1 => (s1, [Eff.cameraPull])).bind
      fun r1 =>
        (updateProjection w h r1.1).bind fun s2 =>
          let renderEffs := [Eff.renderSubmit] ++
            (if gpuAvail then [Eff.readback, Eff.present] else [])
          let r3 := transformGizmoStep manipT s2
          (cubeGizmoStep manipV r3.1).map fun r4 =>
            (r4.1, r1.2 ++ [Eff.projectionUpdate] ++ renderEffs ++ r3.2 ++ r4.2)

/-- A prim with an empty type token, as `GetPrim` yields for an absent
path. -/
def absentPrim : HdPrim := ⟨"", none, none, none, none, none, none, none, none⟩

/-- A camera-typed prim that is schema-complete except for the transform. -/
def noXformCameraPrim : HdPrim :=
  ⟨cameraToken, none, some "perspective", some 20.955, some 15.2908, some 0,
    some 0, some 50, some (1, 1000000)⟩

/-- A camera-typed prim whose transform is present but whose focal
length camera-schema field is missing. -/
def noFocalCameraPrim : HdPrim :=
  ⟨cameraToken, some 1, some "perspective", some 20.955, some 15.2908, some 0,
    some 0, none, some (1, 1000000)⟩

/-- A schema-complete perspective camera prim with identity transform. -/
def fullCameraPrim : HdPrim :=
  ⟨cameraToken, some 1, some "perspective", some 20.955, some 15.2908, some 0,
    some 0, some 50, some (1, 1000000)⟩

/-- The `GfCamera` read off `fullCameraPrim`. -/
def fullCamera : GfCameraData :=
  mkGfCam 1 "perspective" 20.955 15.2908 0 0 50 (1, 1000000)

/-- Viewport state bound to `fullCameraPrim` whose free camera sits at
the origin looking down `-z` (so `_getCurViewMatrix()` is the identity)
but whose `_proj` (the identity matrix) differs from the authored
camera's projection. -/
def cexPushState : VState :=
  { eye := ⟨0, 0, 0⟩
    at' := ⟨0, 0, -1⟩
    up := ⟨0, 1, 0⟩
    proj := 1
    activeCam := some "/World/Cam1"
    scene := fun _ => fullCameraPrim
    selection := [] }

/-- The same state with `_proj` equal to the authored camera's
projection. -/
def witPushState : VState :=
  { cexPushState with proj := projFromCamera fullCamera }

/-- A free-camera viewport state used by the frame-skip witness. -/
def witDrawState : VState :=
  { eye := ⟨5, 5, 5⟩
    at' := ⟨0, 0, 0⟩
    up := ⟨0, 1, 0⟩
    proj := 1
    activeCam := none
    scene := fun _ => absentPrim
    selection := [] }

/-! ### Lemmas and claim theorems -/

namespace V3

@[simp] lemma zero_x : (0 : V3).x = 0 := rfl

@[simp] lemma zero_y : (0 : V3).y = 0 := rfl

@[simp] lemma zero_z : (0 : V3).z = 0 := rfl

@[simp] lemma add_x (a b : V3) : (a + b).x = a.x + b.x := rfl

@[simp] lemma add_y (a b : V3) : (a + b).y = a.y + b.y := rfl

@[simp] lemma add_z (a b : V3) : (a + b).z = a.z + b.z := rfl

@[simp] lemma sub_x (a b : V3) : (a - b).x = a.x - b.x := rfl

@[simp] lemma sub_y (a b : V3) : (a - b).y = a.y - b.y := rfl

@[simp] lemma sub_z (a b : V3) : (a - b).z = a.z - b.z := rfl

@[simp] lemma neg_x (a : V3) : (-a).x = -a.x := rfl

@[simp] lemma neg_y (a : V3) : (-a).y = -a.y := rfl

@[simp] lemma neg_z (a : V3) : (-a).z = -a.z := rfl

@[simp] lemma smul_x (k : ℝ) (a : V3) : (k • a).x = k * a.x := rfl

@[simp] lemma smul_y (k : ℝ) (a : V3) : (k • a).y = k * a.y := rfl

@[simp] lemma smul_z (k : ℝ) (a : V3) : (k • a).z = k * a.z := rfl

lemma normSq_nonneg (v : V3) : 0 ≤ v.normSq := by
  unfold normSq; positivity

lemma normSq_eq_zero_iff (v : V3) : v.normSq = 0 ↔ v = 0 := by
  unfold normSq
  constructor
  · intro h
    have hx : v.x = 0 := by nlinarith [sq_nonneg v.x, sq_nonneg v.y, sq_nonneg v.z]
    have hy : v.y = 0 := by nlinarith [sq_nonneg v.x, sq_nonneg v.y, sq_nonneg v.z]
    have hz : v.z = 0 := by nlinarith [sq_nonneg v.x, sq_nonneg v.y, sq_nonneg v.z]
    ext <;> simp [hx, hy, hz]
  · intro h
    subst h
    simp

lemma sq_len (v : V3) : v.len ^ 2 = v.normSq :=
  Real.sq_sqrt v.normSq_nonneg

lemma len_nonneg (v : V3) : 0 ≤ v.len := Real.sqrt_nonneg _

lemma len_eq_zero_iff (v : V3) : v.len = 0 ↔ v = 0 := by
  rw [len, Real.sqrt_eq_zero (normSq_nonneg v), normSq_eq_zero_iff]

lemma len_pos_of_ne_zero {v : V3} (h : v ≠ 0) : 0 < v.len := by
  rcases lt_or_eq_of_le v.len_nonneg with h' | h'
  · exact h'
  · exact absurd ((len_eq_zero_iff v).mp h'.symm) h

lemma normSq_smul (k : ℝ) (v : V3) : (k • v).normSq = k ^ 2 * v.normSq := by
  simp only [normSq, smul_x, smul_y, smul_z]; ring

lemma len_smul (k : ℝ) (v : V3) : (k • v).len = |k| * v.len := by
  rw [len, normSq_smul, Real.sqrt_mul (sq_nonneg k), Real.sqrt_sq_eq_abs, len]

lemma sub_eq_zero_iff (a b : V3) : a - b = 0 ↔ a = b := by
  constructor
  · intro h
    ext
    · have := congrArg V3.x h; simp at this; linarith
    · have := congrArg V3.y h; simp at this; linarith
    · have := congrArg V3.z h; simp at this; linarith
  · intro h; subst h; ext <;> simp

lemma smul_eq_zero_iff (k : ℝ) (v : V3) : k • v = 0 ↔ k = 0 ∨ v = 0 := by
  by_cases hk : k = 0
  · subst hk
    simp only [true_or, iff_true]
    ext <;> simp
  · constructor
    · intro h
      right
      ext
      · have := congrArg V3.x h; simp at this; rcases this with h' | h' <;> tauto
      · have := congrArg V3.y h; simp at this; rcases this with h' | h' <;> tauto
      · have := congrArg V3.z h; simp at this; rcases this with h' | h' <;> tauto
    · intro h
      rcases h with h | h
      · exact absurd h hk
      · subst h; ext <;> simp

@[simp] lemma normalize_zero : (0 : V3).normalize = 0 := by simp [normalize]

lemma normalize_normSq {v : V3} (h : v ≠ 0) : v.normalize.normSq = 1 := by
  have hn : v.normSq ≠ 0 := fun h0 => h ((normSq_eq_zero_iff v).mp h0)
  rw [normalize, if_neg h, normSq_smul, inv_pow, sq_len]
  field_simp

lemma normalize_len {v : V3} (h : v ≠ 0) : v.normalize.len = 1 := by
  rw [len, normalize_normSq h, Real.sqrt_one]

lemma normalize_eq_self_of_normSq_one {v : V3} (h : v.normSq = 1) :
    v.normalize = v := by
  have hv : v ≠ 0 := by
    intro h0
    rw [h0] at h
    simp [normSq] at h
  rw [normalize, if_neg hv, len, h, Real.sqrt_one, inv_one]
  ext <;> simp

lemma normSq_neg (v : V3) : (-v).normSq = v.normSq := by
  simp only [normSq, neg_x, neg_y, neg_z]; ring

lemma normSq_sub_comm (a b : V3) : (a - b).normSq = (b - a).normSq := by
  simp only [normSq, sub_x, sub_y, sub_z]; ring

lemma len_sub_comm (a b : V3) : (a - b).len = (b - a).len := by
  rw [len, len, normSq_sub_comm]

end V3

namespace Q4

lemma mul_normSq (p q : Q4) : (p.mul q).normSq = p.normSq * q.normSq := by
  simp only [mul, normSq]; ring

lemma conj_normSq (q : Q4) : q.conj.normSq = q.normSq := by
  simp only [conj, normSq]; ring

lemma ofVec_normSq (v : V3) : (ofVec v).normSq = v.normSq := by
  simp only [ofVec, normSq, V3.normSq]; ring

lemma vec_normSq (q : Q4) : q.vec.normSq = q.normSq - q.w ^ 2 := by
  simp only [vec, normSq, V3.normSq]; ring

/-- The real part of `q̄ · v · q` vanishes for a pure quaternion `v`. -/
lemma sandwich_w (q : Q4) (v : V3) : ((q.conj.mul (ofVec v)).mul q).w = 0 := by
  simp only [mul, conj, ofVec]; ring

end Q4

lemma rotMatApply_zero_axis (r : ℝ) (v : V3) : rotMatApply r 0 v = v := by
  unfold rotMatApply
  ext <;> simp

/-- For a unit quaternion the matrix action agrees with the quaternion
sandwich `q̄ · v · q`. -/
lemma rotMatApply_eq_sandwich (r : ℝ) (i v : V3)
    (h : r ^ 2 + i.x ^ 2 + i.y ^ 2 + i.z ^ 2 = 1) :
    rotMatApply r i v =
      (((Q4.mk r i.x i.y i.z).conj.mul (Q4.ofVec v)).mul
        (Q4.mk r i.x i.y i.z)).vec := by
  unfold rotMatApply Q4.conj Q4.mul Q4.ofVec Q4.vec
  ext
  · show (1 - 2 * (i.y ^ 2 + i.z ^ 2)) * v.x + (2 * (i.x * i.y + i.z * r)) * v.y +
      (2 * (i.z * i.x - i.y * r)) * v.z = _
    linear_combination (-v.x) * h
  · show (2 * (i.x * i.y - i.z * r)) * v.x + (1 - 2 * (i.z ^ 2 + i.x ^ 2)) * v.y +
      (2 * (i.y * i.z + i.x * r)) * v.z = _
    linear_combination (-v.y) * h
  · show (2 * (i.z * i.x + i.y * r)) * v.x + (2 * (i.y * i.z - i.x * r)) * v.y +
      (1 - 2 * (i.x ^ 2 + i.y ^ 2)) * v.z = _
    linear_combination (-v.z) * h

lemma rotMatApply_normSq (r : ℝ) (i v : V3)
    (h : r ^ 2 + i.x ^ 2 + i.y ^ 2 + i.z ^ 2 = 1) :
    (rotMatApply r i v).normSq = v.normSq := by
  rw [rotMatApply_eq_sandwich r i v h, Q4.vec_normSq, Q4.sandwich_w,
    Q4.mul_normSq, Q4.mul_normSq, Q4.conj_normSq, Q4.ofVec_normSq]
  have hq : (Q4.mk r i.x i.y i.z).normSq = 1 := by
    simp only [Q4.normSq]; linarith
  rw [hq]
  ring

lemma rotateAbout_normSq (axis : V3) (deg : ℝ) (v : V3) :
    (rotateAbout axis deg v).normSq = v.normSq := by
  unfold rotateAbout
  by_cases h : axis = 0
  · subst h
    rw [V3.normalize_zero]
    have hz : (Real.sin (degHalfRad deg)) • (0 : V3) = 0 := by ext <;> simp
    rw [hz, rotMatApply_zero_axis]
  · apply rotMatApply_normSq
    have hu := V3.normalize_normSq h
    simp only [V3.normSq] at hu
    simp only [V3.smul_x, V3.smul_y, V3.smul_z]
    have hsc := Real.sin_sq_add_cos_sq (degHalfRad deg)
    nlinarith [hu, hsc]

lemma rotateAbout_ne_zero (axis : V3) (deg : ℝ) {v : V3} (h : v ≠ 0) :
    rotateAbout axis deg v ≠ 0 := by
  intro h0
  apply h
  apply (V3.normSq_eq_zero_iff v).mp
  have hpres := rotateAbout_normSq axis deg v
  rw [h0] at hpres
  rw [← hpres]
  simp [V3.normSq]

lemma add_sub_cancel_v3 (a w : V3) : (a + w) - a = w := by
  ext <;> simp

namespace V3

lemma sub_ne_zero_of_ne {a b : V3} (h : a ≠ b) : a - b ≠ 0 :=
  fun h0 => h ((sub_eq_zero_iff a b).mp h0)

lemma ne_of_sub_ne_zero {a b : V3} (h : a - b ≠ 0) : a ≠ b :=
  fun he => h ((sub_eq_zero_iff a b).mpr he)

lemma len_sub_ne_zero_of_ne {a b : V3} (h : a ≠ b) : (a - b).len ≠ 0 :=
  fun h0 => sub_ne_zero_of_ne h ((len_eq_zero_iff _).mp h0)

end V3

lemma orbitCam_at (c : Cam) (dx dy : ℝ) : (orbitCam c dx dy).at' = c.at' := rfl

lemma orbitCam_up (c : Cam) (dx dy : ℝ) : (orbitCam c dx dy).up = c.up := rfl

lemma orbitCam_sub (c : Cam) (dx dy : ℝ) :
    (orbitCam c dx dy).eye - c.at' =
      rotateAbout
        (((c.at' - (c.at' + rotateAbout c.up (dx / 2) (c.eye - c.at'))).cross
          c.up).normalize) (dy / 2)
        (rotateAbout c.up (dx / 2) (c.eye - c.at')) := by
  simp only [orbitCam]
  rw [add_sub_cancel_v3, add_sub_cancel_v3]

lemma panCam_at_sub_eye (c : Cam) (dx dy : ℝ) :
    (panCam c dx dy).at' - (panCam c dx dy).eye = c.at' - c.eye := by
  simp only [panCam]
  ext <;> simp only [V3.sub_x, V3.sub_y, V3.sub_z, V3.add_x, V3.add_y,
    V3.add_z] <;> ring

lemma zoomCam_at (c : Cam) (delta : ℝ) : (zoomCam c delta).at' = c.at' := rfl

lemma zoomCam_sub (c : Cam) (delta : ℝ) (h : c.eye ≠ c.at') :
    (zoomCam c delta).eye - (zoomCam c delta).at' =
      (1 - delta * zoomScale (c.eye - c.at').len / (c.eye - c.at').len) •
        (c.eye - c.at') := by
  have hne : c.at' - c.eye ≠ 0 := V3.sub_ne_zero_of_ne (Ne.symm h)
  have hlen0 : (c.eye - c.at').len ≠ 0 := V3.len_sub_ne_zero_of_ne h
  simp only [zoomCam, V3.normalize, if_neg hne]
  rw [V3.len_sub_comm c.at' c.eye]
  ext <;> simp only [V3.sub_x, V3.sub_y, V3.sub_z, V3.add_x, V3.add_y,
    V3.add_z, V3.smul_x, V3.smul_y, V3.smul_z] <;> field_simp <;> ring

lemma stepCam_preserves_ne {c : Cam} {cmd : Cmd} (h : c.eye ≠ c.at')
    (hs : SafeCmd c cmd) : (stepCam c cmd).eye ≠ (stepCam c cmd).at' := by
  have hsub : c.eye - c.at' ≠ 0 := V3.sub_ne_zero_of_ne h
  cases cmd with
  | orbit dx dy =>
    show (orbitCam c dx dy).eye ≠ (orbitCam c dx dy).at'
    apply V3.ne_of_sub_ne_zero
    rw [orbitCam_at, orbitCam_sub]
    exact rotateAbout_ne_zero _ _ (rotateAbout_ne_zero _ _ hsub)
  | pan dx dy =>
    show (panCam c dx dy).eye ≠ (panCam c dx dy).at'
    intro he
    apply h
    have h0 : c.at' - c.eye = 0 := by
      rw [← panCam_at_sub_eye c dx dy, he]
      exact (V3.sub_eq_zero_iff _ _).mpr rfl
    exact ((V3.sub_eq_zero_iff _ _).mp h0).symm
  | zoom delta =>
    show (zoomCam c delta).eye ≠ (zoomCam c delta).at'
    apply V3.ne_of_sub_ne_zero
    rw [zoomCam_sub c delta h]
    intro h1
    rcases (V3.smul_eq_zero_iff _ _).mp h1 with h2 | h2
    · have hlen0 : (c.eye - c.at').len ≠ 0 := V3.len_sub_ne_zero_of_ne h
      apply hs
      field_simp at h2
      linarith
    · exact hsub h2

/-- C1 (counterexample): starting from `eye = (5,0,0) ≠ at = (0,0,0)`,
the single Zoom call with delta `500` has `scale = max(0.01, log(0.1)) =
0.01` and moves `eye` by exactly `500 · 0.01 = 5` toward `at`, landing
`eye` on `at`: the invariant `eye ≠ at` is violated after the call. -/
theorem camMutators_invariant_cex :
    cexCam.eye ≠ cexCam.at' ∧
    (runCam cexCam [Cmd.zoom 500]).eye = (runCam cexCam [Cmd.zoom 500]).at' := by
  constructor
  · intro he
    have hx := congrArg V3.x he
    norm_num [cexCam] at hx
  · show (zoomCam cexCam 500).eye = (zoomCam cexCam 500).at'
    have hsub : cexCam.eye - cexCam.at' = ⟨5, 0, 0⟩ := by
      ext <;> norm_num [cexCam]
    have hsub2 : cexCam.at' - cexCam.eye = ⟨-5, 0, 0⟩ := by
      ext <;> norm_num [cexCam]
    have hlen : ((⟨5, 0, 0⟩ : V3)).len = 5 := by
      rw [V3.len, show ((⟨5, 0, 0⟩ : V3)).normSq = 5 ^ 2 by norm_num [V3.normSq],
        Real.sqrt_sq (by norm_num : (0:ℝ) ≤ 5)]
    have hlen2 : ((⟨-5, 0, 0⟩ : V3)).len = 5 := by
      rw [V3.len, show ((⟨-5, 0, 0⟩ : V3)).normSq = 5 ^ 2 by norm_num [V3.normSq],
        Real.sqrt_sq (by norm_num : (0:ℝ) ≤ 5)]
    have hscale : zoomScale 5 = 0.01 := by
      rw [zoomScale, show (5:ℝ) * 0.02 = 0.1 by norm_num]
      have hlog := Real.log_neg (by norm_num : (0:ℝ) < 0.1)
        (by norm_num : (0.1:ℝ) < 1)
      rw [max_eq_left (by linarith)]
    have hne : ((⟨-5, 0, 0⟩ : V3)) ≠ 0 := by
      intro h0
      have hx := congrArg V3.x h0
      norm_num at hx
    have hnorm : ((⟨-5, 0, 0⟩ : V3)).normalize = ⟨-1, 0, 0⟩ := by
      simp only [V3.normalize, if_neg hne, hlen2]
      ext <;> norm_num
    simp only [zoomCam]
    rw [hsub, hsub2, hlen, hscale, hnorm]
    ext <;> norm_num [cexCam]

/-- C1 (amended): for every sequence of Orbit/Pan/Zoom calls starting
from a state with `eye ≠ at`, the invariant `eye ≠ at` holds after each
call, provided every Zoom call's displacement `delta * scale` differs
from the focus distance `|eye - at|` current at that call (without that
proviso a Zoom can land `eye` exactly on `at`; Orbit and Pan need no
proviso). -/
theorem camMutators_preserve_eye_ne_at (cam : Cam) (cmds : List Cmd)
    (h : cam.eye ≠ cam.at') (hs : SafeSeq cam cmds) :
    ∀ n, (runCam cam (cmds.take n)).eye ≠ (runCam cam (cmds.take n)).at' := by
  induction cmds generalizing cam with
  | nil =>
    intro n
    simpa [runCam] using h
  | cons cmd rest ih =>
    intro n
    cases n with
    | zero => simpa [runCam] using h
    | succ m =>
      rw [List.take_succ_cons]
      show (runCam (stepCam cam cmd) (rest.take m)).eye ≠
        (runCam (stepCam cam cmd) (rest.take m)).at'
      exact ih (stepCam cam cmd) (stepCam_preserves_ne h hs.1) hs.2 m

theorem camMutators_preserve_eye_ne_at_witness :
    witCam.eye ≠ witCam.at' ∧ SafeSeq witCam [Cmd.pan 3 4] ∧
    (runCam witCam ([Cmd.pan 3 4].take 1)).eye ≠
      (runCam witCam ([Cmd.pan 3 4].take 1)).at' := by
  have h : witCam.eye ≠ witCam.at' := by
    intro he
    have hx := congrArg V3.x he
    norm_num [witCam] at hx
  have hs : SafeSeq witCam [Cmd.pan 3 4] := ⟨trivial, trivial⟩
  exact ⟨h, hs, camMutators_preserve_eye_ne_at witCam [Cmd.pan 3 4] h hs 1⟩

/-- C5: the Zoom scale factor equals `max(0.01, log(focusDistance * 0.02))`,
is monotonically non-decreasing in the (non-negative) focus distance, and
is strictly positive with floor `0.01`. -/
theorem zoomScale_formula_monotone_positive :
    (∀ d, zoomScale d = max 0.01 (Real.log (d * 0.02))) ∧
    (∀ d1 d2, 0 ≤ d1 → d1 ≤ d2 → zoomScale d1 ≤ zoomScale d2) ∧
    (∀ d, 0 < zoomScale d ∧ 0.01 ≤ zoomScale d) := by
  refine ⟨fun d => rfl, ?_, fun d => ⟨?_, ?_⟩⟩
  · intro d1 d2 h0 h12
    unfold zoomScale
    apply max_le (le_max_left _ _)
    rcases eq_or_lt_of_le h0 with h | h
    · rw [← h, zero_mul, Real.log_zero]
      exact le_max_of_le_left (by norm_num)
    · exact le_trans
        (Real.log_le_log (by nlinarith) (by nlinarith)) (le_max_right _ _)
  · exact lt_of_lt_of_le (by norm_num) (le_max_left _ _)
  · exact le_max_left _ _

theorem zoomScale_witness :
    (0:ℝ) ≤ 1 ∧ (1:ℝ) ≤ 2 ∧ zoomScale 1 ≤ zoomScale 2 :=
  ⟨by norm_num, by norm_num,
    zoomScale_formula_monotone_positive.2.1 1 2 (by norm_num) (by norm_num)⟩

/-- C9: Pan translates `eye` and `at` by the same vector, so `at - eye`
and the up vector are exactly unchanged. -/
theorem pan_translates_eye_at_equally (c : Cam) (dx dy : ℝ) :
    (panCam c dx dy).eye - c.eye = (panCam c dx dy).at' - c.at' ∧
    (panCam c dx dy).at' - (panCam c dx dy).eye = c.at' - c.eye ∧
    (panCam c dx dy).up = c.up := by
  refine ⟨?_, panCam_at_sub_eye c dx dy, rfl⟩
  simp only [panCam]
  rw [add_sub_cancel_v3, add_sub_cancel_v3]

/-- C10: Orbit leaves `at` unchanged and preserves the distance
`|eye - at|` (each of its two axis rotations is applied to `eye - at`
and is norm-preserving). -/
theorem orbit_preserves_at_and_distance (c : Cam) (dx dy : ℝ) :
    (orbitCam c dx dy).at' = c.at' ∧
    ((orbitCam c dx dy).eye - (orbitCam c dx dy).at').len =
      (c.eye - c.at').len := by
  refine ⟨rfl, ?_⟩
  rw [orbitCam_at, orbitCam_sub]
  simp only [V3.len]
  rw [rotateAbout_normSq, rotateAbout_normSq]

/-- C6 (counterexample): `_FocusOnPrim` updates `_at` to the extent
midpoint first and then aims from the *new* `at` to the old `eye`, so
with the extent `[(-1,9,-1),(1,11,1)]` (midpoint `(0,10,0)`) and the
pre-existing view direction `(1,0,0)`, the resulting `eye - at` is not a
multiple of the pre-existing view direction. -/
theorem focusOn_direction_cex :
    ¬ ∃ t : ℝ, (focusOn cexCam6 cexMn6 cexMx6).eye -
        (focusOn cexCam6 cexMn6 cexMx6).at' =
          t • (cexCam6.eye - cexCam6.at') := by
  rintro ⟨t, ht⟩
  have h2 : (focusOn cexCam6 cexMn6 cexMx6).eye -
      (focusOn cexCam6 cexMn6 cexMx6).at' =
        ((cexMx6 - cexMn6).len * 2) •
          (cexCam6.eye - midpoint3 cexMn6 cexMx6).normalize := by
    simp only [focusOn]
    exact add_sub_cancel_v3 _ _
  have hmid : midpoint3 cexMn6 cexMx6 = ⟨0, 10, 0⟩ := by
    ext <;> norm_num [midpoint3, cexMn6, cexMx6]
  have hdiff : cexCam6.eye - midpoint3 cexMn6 cexMx6 = ⟨5, -10, 0⟩ := by
    rw [hmid]
    ext <;> norm_num [cexCam6]
  have hsize : cexMx6 - cexMn6 = ⟨2, 2, 2⟩ := by
    ext <;> norm_num [cexMn6, cexMx6]
  have hlen12 : ((⟨2, 2, 2⟩ : V3)).len = Real.sqrt 12 := by
    rw [V3.len, show ((⟨2, 2, 2⟩ : V3)).normSq = 12 by norm_num [V3.normSq]]
  have hlen125 : ((⟨5, -10, 0⟩ : V3)).len = Real.sqrt 125 := by
    rw [V3.len, show ((⟨5, -10, 0⟩ : V3)).normSq = 125 by norm_num [V3.normSq]]
  have hne : ((⟨5, -10, 0⟩ : V3)) ≠ 0 := by
    intro h0
    have hx := congrArg V3.x h0
    norm_num at hx
  have hnorm : ((⟨5, -10, 0⟩ : V3)).normalize =
      (Real.sqrt 125)⁻¹ • ⟨5, -10, 0⟩ := by
    simp only [V3.normalize, if_neg hne, hlen125]
  rw [h2, hsize, hlen12, hdiff, hnorm] at ht
  have hy := congrArg V3.y ht
  norm_num [cexCam6] at hy

/-- C6 (amended): `FocusOn` sets `at` to the extent midpoint and places
`eye` at distance `2 × |extent diagonal|` from the new `at`, along the
direction from the *new* `at` (the midpoint) to the previous `eye`
(which coincides with the pre-existing view direction exactly when the
previous `at` already equals the midpoint, as in the spec's
`[(-1,-1,-1),(1,1,1)]` scenario with `at = (0,0,0)`); the distance claim
requires the previous `eye` not to sit exactly on the midpoint. -/
theorem focusOn_spec (c : Cam) (mn mx : V3)
    (h : c.eye ≠ midpoint3 mn mx) :
    (focusOn c mn mx).at' = midpoint3 mn mx ∧
    (focusOn c mn mx).eye - (focusOn c mn mx).at' =
      ((mx - mn).len * 2) • (c.eye - midpoint3 mn mx).normalize ∧
    ((focusOn c mn mx).eye - (focusOn c mn mx).at').len =
      2 * (mx - mn).len ∧
    (c.at' = midpoint3 mn mx →
      (focusOn c mn mx).eye - (focusOn c mn mx).at' =
        ((mx - mn).len * 2) • (c.eye - c.at').normalize) := by
  have h2 : (focusOn c mn mx).eye - (focusOn c mn mx).at' =
      ((mx - mn).len * 2) • (c.eye - midpoint3 mn mx).normalize := by
    simp only [focusOn]
    exact add_sub_cancel_v3 _ _
  refine ⟨rfl, h2, ?_, ?_⟩
  · rw [h2, V3.len_smul, V3.normalize_len (V3.sub_ne_zero_of_ne h),
      abs_of_nonneg (mul_nonneg (V3.len_nonneg _) (by norm_num))]
    ring
  · intro hat
    rw [h2, hat]

theorem focusOn_spec_witness :
    witCam6.eye ≠ midpoint3 ⟨-1, -1, -1⟩ ⟨1, 1, 1⟩ ∧
    ((focusOn witCam6 ⟨-1, -1, -1⟩ ⟨1, 1, 1⟩).at' =
        midpoint3 ⟨-1, -1, -1⟩ ⟨1, 1, 1⟩ ∧
      (focusOn witCam6 ⟨-1, -1, -1⟩ ⟨1, 1, 1⟩).eye -
          (focusOn witCam6 ⟨-1, -1, -1⟩ ⟨1, 1, 1⟩).at' =
        ((((⟨1, 1, 1⟩ : V3)) - ⟨-1, -1, -1⟩).len * 2) •
          (witCam6.eye - midpoint3 ⟨-1, -1, -1⟩ ⟨1, 1, 1⟩).normalize ∧
      ((focusOn witCam6 ⟨-1, -1, -1⟩ ⟨1, 1, 1⟩).eye -
          (focusOn witCam6 ⟨-1, -1, -1⟩ ⟨1, 1, 1⟩).at').len =
        2 * ((((⟨1, 1, 1⟩ : V3)) - ⟨-1, -1, -1⟩).len) ∧
      (witCam6.at' = midpoint3 ⟨-1, -1, -1⟩ ⟨1, 1, 1⟩ →
        (focusOn witCam6 ⟨-1, -1, -1⟩ ⟨1, 1, 1⟩).eye -
            (focusOn witCam6 ⟨-1, -1, -1⟩ ⟨1, 1, 1⟩).at' =
          ((((⟨1, 1, 1⟩ : V3)) - ⟨-1, -1, -1⟩).len * 2) •
            (witCam6.eye - witCam6.at').normalize)) := by
  have h : witCam6.eye ≠ midpoint3 ⟨-1, -1, -1⟩ ⟨1, 1, 1⟩ := by
    intro he
    have hx := congrArg V3.x he
    norm_num [witCam6, midpoint3] at hx
  exact ⟨h, focusOn_spec witCam6 ⟨-1, -1, -1⟩ ⟨1, 1, 1⟩ h⟩

lemma setXform_eye (s : VState) (p : String) (m : Mat4) :
    (setXform s p m).eye = s.eye := rfl

lemma setXform_at (s : VState) (p : String) (m : Mat4) :
    (setXform s p m).at' = s.at' := rfl

lemma setXform_up (s : VState) (p : String) (m : Mat4) :
    (setXform s p m).up = s.up := rfl

lemma setXform_proj (s : VState) (p : String) (m : Mat4) :
    (setXform s p m).proj = s.proj := rfl

lemma setXform_activeCam (s : VState) (p : String) (m : Mat4) :
    (setXform s p m).activeCam = s.activeCam := rfl

lemma setXform_lookAtOf (s : VState) (p : String) (m : Mat4) :
    lookAtOf (setXform s p m) = lookAtOf s := rfl

lemma setXform_scene_self (s : VState) (p : String) (m : Mat4) :
    (setXform s p m).scene p = { s.scene p with xform := some m } := by
  simp [setXform, Function.update_same]

lemma mkGfCam_transform (xf : Mat4) (pr : String) (ha va ho vo fl : ℝ)
    (cr : ℝ × ℝ) : (mkGfCam xf pr ha va ho vo fl cr).transform = xf := rfl

lemma mkGfCam_set_transform (xf xf2 : Mat4) (pr : String)
    (ha va ho vo fl : ℝ) (cr : ℝ × ℝ) :
    ({ mkGfCam xf pr ha va ho vo fl cr with transform := xf2 }) =
      mkGfCam xf2 pr ha va ho vo fl cr := rfl

lemma projFromCamera_transform_irrel (cam : GfCameraData) (m : Mat4) :
    projFromCamera ({ cam with transform := m }) = projFromCamera cam := by
  cases cam
  rfl

lemma projFromCamera_perspective_33 (cam : GfCameraData)
    (h : cam.projection = CamProj.perspective) :
    projFromCamera cam 3 3 = 0 := by
  unfold projFromCamera
  rw [h]
  simp

lemma toGfCamera_fields {prim : HdPrim} {cam : GfCameraData}
    (hp : prim.primType = cameraToken) (h : toGfCamera prim = some cam) :
    ∃ xf pr ha va ho vo fl cr,
      prim.xform = some xf ∧ prim.projection = some pr ∧
      prim.hAperture = some ha ∧ prim.vAperture = some va ∧
      prim.hApertureOffset = some ho ∧ prim.vApertureOffset = some vo ∧
      prim.focalLength = some fl ∧ prim.clippingRange = some cr ∧
      cam = mkGfCam xf pr ha va ho vo fl cr := by
  unfold toGfCamera at h
  rw [if_neg (not_not_intro hp)] at h
  rcases h1 : prim.xform with _ | xf
  · rw [h1] at h; simp at h
  rcases h2 : prim.projection with _ | pr
  · rw [h1, h2] at h; simp at h
  rcases h3 : prim.hAperture with _ | ha
  · rw [h1, h2, h3] at h; simp at h
  rcases h4 : prim.vAperture with _ | va
  · rw [h1, h2, h3, h4] at h; simp at h
  rcases h5 : prim.hApertureOffset with _ | ho
  · rw [h1, h2, h3, h4, h5] at h; simp at h
  rcases h6 : prim.vApertureOffset with _ | vo
  · rw [h1, h2, h3, h4, h5, h6] at h; simp at h
  rcases h7 : prim.focalLength with _ | fl
  · rw [h1, h2, h3, h4, h5, h6, h7] at h; simp at h
  rcases h8 : prim.clippingRange with _ | cr
  · rw [h1, h2, h3, h4, h5, h6, h7, h8] at h; simp at h
  rw [h1, h2, h3, h4, h5, h6, h7, h8] at h
  simp only [Option.some_bind, Option.map_some', Option.some.injEq] at h
  exact ⟨xf, pr, ha, va, ho, vo, fl, cr, rfl, rfl, rfl, rfl, rfl, rfl, rfl,
    rfl, h.symm⟩

lemma toGfCamera_eq (prim : HdPrim) (xf : Mat4) (pr : String)
    (ha va ho vo fl : ℝ) (cr : ℝ × ℝ)
    (hp : prim.primType = cameraToken)
    (h1 : prim.xform = some xf) (h2 : prim.projection = some pr)
    (h3 : prim.hAperture = some ha) (h4 : prim.vAperture = some va)
    (h5 : prim.hApertureOffset = some ho)
    (h6 : prim.vApertureOffset = some vo)
    (h7 : prim.focalLength = some fl)
    (h8 : prim.clippingRange = some cr) :
    toGfCamera prim = some (mkGfCam xf pr ha va ho vo fl cr) := by
  unfold toGfCamera
  rw [if_neg (not_not_intro hp), h1, h2, h3, h4, h5, h6, h7, h8]
  rfl

/-- C3 (counterexample): at the epsilon boundary `|dx| + |dy| = 0.001`
the source comparison `fabs(dx) + fabs(dy) < 0.001` is strict, so no
intersection query runs and the selection stays unchanged — the boundary
is treated as a drag, not as a click. -/
theorem pickOnRelease_boundary_cex :
    |(0.001 : ℝ)| + |(0 : ℝ)| = 0.001 ∧
    mouseReleaseLeft 0.001 0 (some "/World/Sphere") ["/old"] =
      (["/old"], false) := by
  have habs : |(0.001 : ℝ)| + |(0 : ℝ)| = 0.001 := by
    rw [abs_of_nonneg (by norm_num : (0:ℝ) ≤ 0.001), abs_of_nonneg le_rfl]
    norm_num
  refine ⟨habs, ?_⟩
  unfold mouseReleaseLeft
  rw [if_neg (by rw [habs]; norm_num)]

/-- C3 (amended): on left-pointer release the intersection query runs
exactly when the accumulated drag distance satisfies
`|dx| + |dy| < 0.001` (strict: the boundary value is treated as a drag);
for every drag distance `≥ 0.001` — in particular any distance strictly
greater than the epsilon — the selection is left unchanged and no query
runs, while below the epsilon the query runs and the selection becomes
the hit path (or is cleared on an empty hit). -/
theorem pickOnRelease_strict (dx dy : ℝ) (intr : Option String)
    (sel : List String) :
    (0.001 ≤ |dx| + |dy| →
      mouseReleaseLeft dx dy intr sel = (sel, false)) ∧
    (|dx| + |dy| < 0.001 →
      mouseReleaseLeft dx dy intr sel =
        ((match intr with
          | none => []
          | some p => [p]), true)) := by
  constructor
  · intro h
    unfold mouseReleaseLeft
    rw [if_neg (not_lt.mpr h)]
  · intro h
    unfold mouseReleaseLeft
    rw [if_pos h]

theorem pickOnRelease_strict_witness :
    ((0.001 : ℝ) ≤ |(0.5 : ℝ)| + |(0 : ℝ)| ∧
      mouseReleaseLeft 0.5 0 (some "/World/Sphere") ["/old"] =
        (["/old"], false)) ∧
    (|(0.0001 : ℝ)| + |(0 : ℝ)| < 0.001 ∧
      mouseReleaseLeft 0.0001 0 (some "/World/Sphere") ["/old"] =
        (["/World/Sphere"], true)) := by
  have h1 : (0.001 : ℝ) ≤ |(0.5 : ℝ)| + |(0 : ℝ)| := by
    rw [abs_of_nonneg (by norm_num : (0:ℝ) ≤ 0.5), abs_of_nonneg le_rfl]
    norm_num
  have h2 : |(0.0001 : ℝ)| + |(0 : ℝ)| < 0.001 := by
    rw [abs_of_nonneg (by norm_num : (0:ℝ) ≤ 0.0001), abs_of_nonneg le_rfl]
    norm_num
  exact ⟨⟨h1, (pickOnRelease_strict 0.5 0 (some "/World/Sphere") ["/old"]).1 h1⟩,
    ⟨h2, (pickOnRelease_strict 0.0001 0 (some "/World/Sphere") ["/old"]).2 h2⟩⟩

/-- C4 (counterexample): a camera-typed prim lacking the transform
schema field does not yield the default camera — `_ToGfCamera`
dereferences the missing field unguarded (embedded as `none`), so the
claimed soft-fallback does not happen for schema-incomplete camera
prims. -/
theorem readCamera_missing_field_cex :
    (toGfCamera noXformCameraPrim = none ∧
      toGfCamera noXformCameraPrim ≠ some defaultGfCamera) ∧
    (toGfCamera noFocalCameraPrim = none ∧
      toGfCamera noFocalCameraPrim ≠ some defaultGfCamera) := by
  have h1 : toGfCamera noXformCameraPrim = none := by
    unfold toGfCamera
    rw [if_neg (not_not_intro
      (show noXformCameraPrim.primType = cameraToken from rfl))]
    rfl
  have h2 : toGfCamera noFocalCameraPrim = none := by
    unfold toGfCamera
    rw [if_neg (not_not_intro
      (show noFocalCameraPrim.primType = cameraToken from rfl))]
    rfl
  exact ⟨⟨h1, by rw [h1]; simp⟩, ⟨h2, by rw [h2]; simp⟩⟩

/-- C4 (amended): `_ToGfCamera` applied to a prim that is absent or not
of camera type returns the default perspective camera without failing;
for a camera-typed prim, however, every schema field is read
unconditionally, so whenever any required transform or camera schema
field (transform, projection, apertures, aperture offsets, focal length,
clipping range) is missing, the read fails instead of returning the
default camera. -/
theorem readCamera_defaults (prim : HdPrim) :
    (prim.primType ≠ cameraToken →
      toGfCamera prim = some defaultGfCamera) ∧
    (prim.primType = cameraToken →
      prim.xform = none ∨ prim.projection = none ∨ prim.hAperture = none ∨
        prim.vAperture = none ∨ prim.hApertureOffset = none ∨
        prim.vApertureOffset = none ∨ prim.focalLength = none ∨
        prim.clippingRange = none →
      toGfCamera prim = none) := by
  constructor
  · intro h
    unfold toGfCamera
    rw [if_pos h]
  · intro hp hmiss
    rcases hres : toGfCamera prim with _ | cam
    · rfl
    · exfalso
      obtain ⟨xf, pr, ha, va, ho, vo, fl, cr, h1, h2, h3, h4, h5, h6, h7, h8,
        -⟩ := toGfCamera_fields hp hres
      rcases hmiss with h | h | h | h | h | h | h | h
      · rw [h] at h1
        exact Option.noConfusion h1
      · rw [h] at h2
        exact Option.noConfusion h2
      · rw [h] at h3
        exact Option.noConfusion h3
      · rw [h] at h4
        exact Option.noConfusion h4
      · rw [h] at h5
        exact Option.noConfusion h5
      · rw [h] at h6
        exact Option.noConfusion h6
      · rw [h] at h7
        exact Option.noConfusion h7
      · rw [h] at h8
        exact Option.noConfusion h8

theorem readCamera_defaults_witness :
    (absentPrim.primType ≠ cameraToken ∧
      toGfCamera absentPrim = some defaultGfCamera) ∧
    (noFocalCameraPrim.primType = cameraToken ∧
      noFocalCameraPrim.focalLength = none ∧
      toGfCamera noFocalCameraPrim = none) :=
  ⟨⟨by decide, (readCamera_defaults absentPrim).1 (by decide)⟩,
    ⟨rfl, rfl, (readCamera_defaults noFocalCameraPrim).2 rfl
      (Or.inr (Or.inr (Or.inr (Or.inr (Or.inr (Or.inr (Or.inl rfl)))))))⟩⟩

/-- C7: the transform gizmo issues its `SetXform` write-back on
`Selection[0]`'s path exactly when the post-manipulate matrix differs
from the pre-manipulate matrix; a manipulate step returning the
identical matrix causes zero write-backs and leaves the editable layer
unchanged. -/
theorem transformGuizmo_write_iff (sel : List String) (xf : String → Mat4)
    (manip : Mat4 → Mat4) (p : String) (rest : List String)
    (hsel : sel = p :: rest) (hp : p ≠ "") :
    (updateTransformGuizmo sel xf manip = some (p, manip (xf p)) ↔
      manip (xf p) ≠ xf p) ∧
    (manip (xf p) = xf p → updateTransformGuizmo sel xf manip = none) ∧
    (∀ s : VState, s.selection = sel →
      manip (((s.scene p).xform).getD 1) = ((s.scene p).xform).getD 1 →
      transformGizmoStep manip s = (s, [Eff.gizmoUpdate])) := by
  subst hsel
  refine ⟨?_, ?_, ?_⟩
  · simp only [updateTransformGuizmo]
    rw [if_neg hp]
    by_cases heq : manip (xf p) = xf p
    · rw [if_pos heq]
      simp [heq]
    · rw [if_neg heq]
      simp [heq]
  · intro heq
    simp only [updateTransformGuizmo]
    rw [if_neg hp, if_pos heq]
  · intro s hsel2 heq
    unfold transformGizmoStep
    rw [hsel2]
    simp only [updateTransformGuizmo]
    rw [if_neg hp, if_pos heq]

theorem transformGuizmo_write_iff_witness :
    (["/World/Sphere"] : List String) = "/World/Sphere" :: [] ∧
    ("/World/Sphere" : String) ≠ "" ∧
    ((updateTransformGuizmo ["/World/Sphere"] (fun _ => 1) id =
        some ("/World/Sphere", id ((fun _ => (1 : Mat4)) "/World/Sphere")) ↔
      id ((fun _ => (1 : Mat4)) "/World/Sphere") ≠
        (fun _ => (1 : Mat4)) "/World/Sphere") ∧
    (id ((fun _ => (1 : Mat4)) "/World/Sphere") =
        (fun _ => (1 : Mat4)) "/World/Sphere" →
      updateTransformGuizmo ["/World/Sphere"] (fun _ => 1) id = none) ∧
    (∀ s : VState, s.selection = ["/World/Sphere"] →
      id (((s.scene "/World/Sphere").xform).getD 1) =
        ((s.scene "/World/Sphere").xform).getD 1 →
      transformGizmoStep id s = (s, [Eff.gizmoUpdate]))) := by
  refine ⟨rfl, by decide, ?_⟩
  exact transformGuizmo_write_iff ["/World/Sphere"] (fun _ => 1) id
    "/World/Sphere" [] rfl (by decide)

/-- C8: whenever the viewport width or height is non-positive, the
per-frame sequence returns immediately after the guard: no camera pull,
projection recomputation, render submission, readback, presentation or
gizmo update happens (the effect list is empty) and the state — camera,
projection and selection included — is returned unchanged. -/
theorem drawFrame_skips_on_degenerate_size (w h : ℝ) (focused : Bool)
    (manipT manipV : Mat4 → Mat4) (gpuAvail : Bool) (s : VState)
    (hwh : w ≤ 0 ∨ h ≤ 0) :
    drawFrame w h focused manipT manipV gpuAvail s = some (s, []) := by
  unfold drawFrame
  rw [if_pos hwh]

theorem drawFrame_skips_witness :
    ((0 : ℝ) ≤ 0 ∨ (768 : ℝ) ≤ 0) ∧
    drawFrame 0 768 true id id true witDrawState = some (witDrawState, []) :=
  ⟨Or.inl le_rfl,
    drawFrame_skips_on_degenerate_size 0 768 true id id true witDrawState
      (Or.inl le_rfl)⟩

lemma lookAt_canonical : lookAt ⟨0, 0, 0⟩ ⟨0, 0, -1⟩ ⟨0, 1, 0⟩ = 1 := by
  have hf0 : ((⟨0, 0, -1⟩ : V3) - ⟨0, 0, 0⟩) = ⟨0, 0, -1⟩ := by
    ext <;> norm_num
  have hfn : ((⟨0, 0, -1⟩ : V3)).normalize = ⟨0, 0, -1⟩ :=
    V3.normalize_eq_self_of_normSq_one (by norm_num [V3.normSq])
  have hc1 : V3.cross ⟨0, 0, -1⟩ ⟨0, 1, 0⟩ = ⟨1, 0, 0⟩ := by
    ext <;> norm_num [V3.cross]
  have hsn : ((⟨1, 0, 0⟩ : V3)).normalize = ⟨1, 0, 0⟩ :=
    V3.normalize_eq_self_of_normSq_one (by norm_num [V3.normSq])
  have hc2 : V3.cross ⟨1, 0, 0⟩ ⟨0, 0, -1⟩ = ⟨0, 1, 0⟩ := by
    ext <;> norm_num [V3.cross]
  simp only [lookAt, hf0, hfn, hc1, hsn, hc2]
  ext i j
  fin_cases i <;> fin_cases j <;>
    simp [V3.dot, Matrix.one_apply, Matrix.vecHead, Matrix.vecTail]

lemma toGfCamera_fullCameraPrim : toGfCamera fullCameraPrim = some fullCamera :=
  toGfCamera_eq fullCameraPrim 1 "perspective" 20.955 15.2908 0 0 50
    (1, 1000000) rfl rfl rfl rfl rfl rfl rfl rfl rfl

lemma fullCamera_projection : fullCamera.projection = CamProj.perspective := by
  show (if ("perspective" : String) = orthographicToken then
    CamProj.orthographic else CamProj.perspective) = CamProj.perspective
  rw [if_neg (by decide)]

lemma projFromCamera_fullCamera_ne_one : projFromCamera fullCamera ≠ 1 := by
  intro h
  have h33 := congrFun (congrFun h 3) 3
  rw [projFromCamera_perspective_33 fullCamera fullCamera_projection,
    Matrix.one_apply_eq] at h33
  norm_num at h33

lemma updateActiveCam_some {s : VState} {p : String}
    (hac : s.activeCam = some p) :
    updateActiveCamFromViewport s =
      (toGfCamera (s.scene p)).map fun cam =>
        if lookAtOf s = cam.transform⁻¹ ∧ s.proj = projFromCamera cam
        then (s, false) else (setXform s p (lookAtOf s)⁻¹, true) := by
  unfold updateActiveCamFromViewport
  rw [hac]

/-- C2 (counterexample): with the authored camera's transform already
equal to the inverse view matrix but the viewport projection different
from the authored camera's projection, *both* of two consecutive calls
of `_UpdateActiveCamFromViewport` issue a `SetXform` write (the write
never changes the authored projection, so the condition stays unequal):
calling it twice with no intervening camera change performs two writes,
not exactly one. -/
theorem pushToActiveCamera_two_writes_cex :
    twiceWrites cexPushState = some (true, true) := by
  have hview : lookAtOf cexPushState = 1 := lookAt_canonical
  have hcam : toGfCamera (cexPushState.scene "/World/Cam1") = some fullCamera :=
    toGfCamera_fullCameraPrim
  have hcond : ¬(lookAtOf cexPushState = fullCamera.transform⁻¹ ∧
      cexPushState.proj = projFromCamera fullCamera) := by
    rintro ⟨-, h2⟩
    exact projFromCamera_fullCamera_ne_one
      (h2.symm.trans (show cexPushState.proj = 1 from rfl))
  have h1 : updateActiveCamFromViewport cexPushState =
      some (setXform cexPushState "/World/Cam1" (lookAtOf cexPushState)⁻¹,
        true) := by
    rw [updateActiveCam_some
      (show cexPushState.activeCam = some "/World/Cam1" from rfl), hcam]
    simp only [Option.map_some']
    rw [if_neg hcond]
  set s1 := setXform cexPushState "/World/Cam1" (lookAtOf cexPushState)⁻¹
    with hs1
  have hs1scene : s1.scene "/World/Cam1" =
      { fullCameraPrim with xform := some (lookAtOf cexPushState)⁻¹ } := by
    rw [hs1, setXform_scene_self]
    rfl
  have hcam2 : toGfCamera (s1.scene "/World/Cam1") =
      some (mkGfCam (lookAtOf cexPushState)⁻¹ "perspective" 20.955 15.2908
        0 0 50 (1, 1000000)) := by
    rw [hs1scene]
    exact toGfCamera_eq _ _ _ _ _ _ _ _ _ rfl rfl rfl rfl rfl rfl rfl rfl rfl
  have hproj2 : projFromCamera (mkGfCam (lookAtOf cexPushState)⁻¹
      "perspective" 20.955 15.2908 0 0 50 (1, 1000000)) =
        projFromCamera fullCamera :=
    projFromCamera_transform_irrel fullCamera ((lookAtOf cexPushState)⁻¹)
  have hcond2 : ¬(lookAtOf s1 = (mkGfCam (lookAtOf cexPushState)⁻¹
      "perspective" 20.955 15.2908 0 0 50 (1, 1000000)).transform⁻¹ ∧
      s1.proj = projFromCamera (mkGfCam (lookAtOf cexPushState)⁻¹
        "perspective" 20.955 15.2908 0 0 50 (1, 1000000))) := by
    rintro ⟨-, h2⟩
    rw [hproj2] at h2
    exact projFromCamera_fullCamera_ne_one
      (h2.symm.trans (show s1.proj = 1 from rfl))
  have h2call : updateActiveCamFromViewport s1 =
      some (setXform s1 "/World/Cam1" (lookAtOf s1)⁻¹, true) := by
    rw [updateActiveCam_some (show s1.activeCam = some "/World/Cam1" from rfl),
      hcam2]
    simp only [Option.map_some']
    rw [if_neg hcond2]
  unfold twiceWrites
  rw [h1]
  simp only [Option.some_bind]
  rw [h2call]
  simp only [Option.map_some']

/-- C2 (amended): when an active camera is bound (and its prim is
readable), `_UpdateActiveCamFromViewport` issues a `SetXform` write iff
the recomputed view matrix or the viewport projection differs from the
pair derived from the authored camera.  Since the write changes only the
authored transform — never the authored projection — calling it twice
with no intervening change performs at most one write only when the
viewport projection equals the authored camera's projection (for an
invertible view matrix); when the projections differ, every call
writes. -/
theorem pushToActiveCamera_write_iff (s : VState) (p : String)
    (cam : GfCameraData)
    (hac : s.activeCam = some p)
    (hp : (s.scene p).primType = cameraToken)
    (hcam : toGfCamera (s.scene p) = some cam) :
    ((updateActiveCamFromViewport s).map Prod.snd = some true ↔
      ¬(lookAtOf s = cam.transform⁻¹ ∧ s.proj = projFromCamera cam)) ∧
    (s.proj = projFromCamera cam → IsUnit (lookAtOf s).det →
      ∀ r1, updateActiveCamFromViewport s = some r1 →
        (updateActiveCamFromViewport r1.1).map Prod.snd = some false) := by
  constructor
  · rw [updateActiveCam_some hac, hcam]
    simp only [Option.map_some']
    by_cases hcond : lookAtOf s = cam.transform⁻¹ ∧
        s.proj = projFromCamera cam
    · rw [if_pos hcond]
      simp [hcond]
    · rw [if_neg hcond]
      simp [hcond]
  · intro hproj hdet r1 hr1
    rw [updateActiveCam_some hac, hcam] at hr1
    simp only [Option.map_some', Option.some.injEq] at hr1
    by_cases hcond : lookAtOf s = cam.transform⁻¹ ∧
        s.proj = projFromCamera cam
    · rw [if_pos hcond] at hr1
      rw [← hr1]
      rw [updateActiveCam_some hac, hcam]
      simp only [Option.map_some']
      rw [if_pos hcond]
    · rw [if_neg hcond] at hr1
      obtain ⟨xf, pr, ha, va, ho, vo, fl, cr, h1, h2, h3, h4, h5, h6, h7, h8,
        hcameq⟩ := toGfCamera_fields hp hcam
      rw [← hr1]
      have hs1scene : (setXform s p (lookAtOf s)⁻¹).scene p =
          { s.scene p with xform := some (lookAtOf s)⁻¹ } :=
        setXform_scene_self s p _
      have hcam2 : toGfCamera ((setXform s p (lookAtOf s)⁻¹).scene p) =
          some (mkGfCam (lookAtOf s)⁻¹ pr ha va ho vo fl cr) := by
        apply toGfCamera_eq
        · rw [hs1scene]
          exact hp
        · rw [hs1scene]
        · rw [hs1scene]
          exact h2
        · rw [hs1scene]
          exact h3
        · rw [hs1scene]
          exact h4
        · rw [hs1scene]
          exact h5
        · rw [hs1scene]
          exact h6
        · rw [hs1scene]
          exact h7
        · rw [hs1scene]
          exact h8
      rw [updateActiveCam_some
        (show (setXform s p (lookAtOf s)⁻¹).activeCam = some p from
          (setXform_activeCam s p _).trans hac), hcam2]
      simp only [Option.map_some']
      rw [if_pos ?_]
      constructor
      · rw [setXform_lookAtOf, mkGfCam_transform]
        exact (Matrix.nonsing_inv_nonsing_inv _ hdet).symm
      · rw [setXform_proj, hproj, hcameq]
        exact (projFromCamera_transform_irrel
          (mkGfCam xf pr ha va ho vo fl cr) ((lookAtOf s)⁻¹)).symm

theorem pushToActiveCamera_write_iff_witness :
    witPushState.activeCam = some "/World/Cam1" ∧
    (witPushState.scene "/World/Cam1").primType = cameraToken ∧
    toGfCamera (witPushState.scene "/World/Cam1") = some fullCamera ∧
    (((updateActiveCamFromViewport witPushState).map Prod.snd = some true ↔
      ¬(lookAtOf witPushState = fullCamera.transform⁻¹ ∧
        witPushState.proj = projFromCamera fullCamera)) ∧
    (witPushState.proj = projFromCamera fullCamera →
      IsUnit (lookAtOf witPushState).det →
      ∀ r1, updateActiveCamFromViewport witPushState = some r1 →
        (updateActiveCamFromViewport r1.1).map Prod.snd = some false)) :=
  ⟨rfl, rfl, toGfCamera_fullCameraPrim,
    pushToActiveCamera_write_iff witPushState "/World/Cam1" fullCamera rfl rfl
      toGfCamera_fullCameraPrim⟩

